import Mathlib

/-!
Verification of the LEDMatrix basketball-scoreboard plugin.

Shallow embedding of the plugin's pure logic:
* `formatScore` — the `format_score` helper of
  `BasketballLive._draw_scorebug_layout` (src/basketball.py);
* `periodText` — the period/quarter labelling of
  `Basketball._extract_game_details` (src/basketball.py);
* the game-detail extraction and rejection rules (src/basketball.py);
* the mode registry `_get_available_modes`, the mode-cycling step of
  `display`, `has_live_content`, the dynamic-duration override chain
  `supports_dynamic_duration` / `get_dynamic_duration_cap`, and the
  dynamic-cycle tracking `_record_dynamic_progress` /
  `_evaluate_dynamic_cycle_completion` / `reset_cycle_state`
  (src/manager.py);
* the fetch-query selection of `_fetch_ncaaw_api_data`
  (src/ncaaw_basketball_managers.py) and `_fetch_ncaam_api_data`
  (src/ncaam_basketball_managers.py).

Python machine details are modelled exactly where the claims need them:
decimal printing of `str(int)`, truncation toward zero of `int(float(x))`,
`str.strip`, `float(str)` on sign/decimal literals, and the
`re.findall('\\d+', s)` first match.
-/

namespace BasketballScoreboard

/-- Decimal digit character for a value below ten (model of Python's
decimal printing digits). -/
def digitChar : Nat → Char
  | 0 => '0'
  | 1 => '1'
  | 2 => '2'
  | 3 => '3'
  | 4 => '4'
  | 5 => '5'
  | 6 => '6'
  | 7 => '7'
  | 8 => '8'
  | 9 => '9'
  | _ => '?'

/-- Fuelled decimal expansion of a natural number, most significant digit
first.  Fuel `n + 1` is always enough since `n / 10 < n` for `n ≥ 10`. -/
def decDigitsAux : Nat → Nat → List Char
  | 0, _ => []
  | fuel + 1, n =>
    if n < 10 then [digitChar n]
    else decDigitsAux fuel (n / 10) ++ [digitChar (n % 10)]

/-- Model of Python `str` on a non-negative integer. -/
def natToDec (n : Nat) : String :=
  ⟨decDigitsAux (n + 1) n⟩

/-- Model of Python `str` on an integer: a minus sign followed by the
decimal expansion when negative. -/
def intToDec (i : Int) : String :=
  if i < 0 then "-" ++ natToDec (-i).toNat else natToDec i.toNat

/-- Value of a list of decimal digit characters (model of Python `int`
applied to a digit string). -/
def digitsToNat (cs : List Char) : Nat :=
  cs.foldl (fun a c => 10 * a + (c.toNat - '0'.toNat)) 0

/-- Fractional value of the digits after a decimal point. -/
def fracToRat (cs : List Char) : ℚ :=
  cs.foldr (fun c acc => (((c.toNat - '0'.toNat : Nat) : ℚ) + acc) / 10) 0

/-- A Python float value: a finite value (idealised as its exact decimal
rational rather than its binary64 rounding), an infinity, or NaN. -/
inductive PyFloat where
  | finite (q : ℚ) : PyFloat
  | inf : PyFloat
  | negInf : PyFloat
  | nan : PyFloat
  deriving DecidableEq

/-- ASCII case folding for the letters of `float()`'s special literals
`inf`/`infinity`/`nan` and the exponent marker; every other character is
left alone (any other uppercase letter fails the parse in either
case). -/
def lowerAscii : Char → Char
  | 'I' => 'i'
  | 'N' => 'n'
  | 'F' => 'f'
  | 'T' => 't'
  | 'Y' => 'y'
  | 'A' => 'a'
  | 'E' => 'e'
  | c => c

/-- The exponent part after the `e` marker: optional sign then digits. -/
def parseExponent? (cs : List Char) : Option Int :=
  let (sgn, ds) : Int × List Char :=
    match cs with
    | '-' :: r => (-1, r)
    | '+' :: r => (1, r)
    | r => (1, r)
  if ds ≠ [] ∧ ds.all Char.isDigit then some (sgn * (digitsToNat ds : Int))
  else none

/-- Unsigned numeric part of a Python float literal:
`digits[.digits]`, `digits.`, or `.digits`, with an optional
`e[sign]digits` exponent. -/
def parseDecimal? (cs : List Char) : Option ℚ :=
  let intPart := cs.takeWhile Char.isDigit
  let rest := cs.dropWhile Char.isDigit
  match rest with
  | [] => if intPart = [] then none else some (digitsToNat intPart)
  | '.' :: frac =>
    let fracPart := frac.takeWhile Char.isDigit
    let rest2 := frac.dropWhile Char.isDigit
    if intPart = [] ∧ fracPart = [] then none
    else
      let base := (digitsToNat intPart : ℚ) + fracToRat fracPart
      match rest2 with
      | [] => some base
      | 'e' :: ex => (parseExponent? ex).map (fun e => base * (10 : ℚ) ^ e)
      | _ => none
  | 'e' :: ex =>
    if intPart = [] then none
    else (parseExponent? ex).map
      (fun e => (digitsToNat intPart : ℚ) * (10 : ℚ) ^ e)
  | _ => none

/-- Magnitude at which a decimal literal overflows a binary64 float:
`2^1024` written out as a literal (the exact round-to-even boundary
`2^1024 - 2^970` is idealised to `2^1024`, as is binary64 rounding of
finite values throughout). -/
def pyFloatMaxMagnitude : ℚ :=
  ((179769313486231590772930519078902473361797697894230657273430081157732675805500963132708477322407536021120113879871393357658789768814416622492847430639474124377767893424865485276302219601246094119453082952085005768838150682342462881473913110540827237163350510684586298239947245938479716304835356329624224137216 : ℕ) : ℚ)

/-- Model of Python `float(s)` on a string: optional sign, then a
case-insensitive `inf`/`infinity`/`nan` literal or a decimal literal
with optional fraction and exponent; a literal whose magnitude reaches
the binary64 range limit yields an infinity, exactly as `float("1e400")`
does.  Numeric-literal underscores, non-ASCII digits and surrounding
whitespace (the callers strip first) are outside the modelled
grammar. -/
def parseFloat (s : String) : Option PyFloat :=
  let cs := s.toList.map lowerAscii
  let (neg, body) : Bool × List Char :=
    match cs with
    | '-' :: r => (true, r)
    | '+' :: r => (false, r)
    | r => (false, r)
  if body = ['i', 'n', 'f'] ∨
      body = ['i', 'n', 'f', 'i', 'n', 'i', 't', 'y'] then
    some (if neg then .negInf else .inf)
  else if body = ['n', 'a', 'n'] then some .nan
  else
    (parseDecimal? body).map (fun q =>
      if pyFloatMaxMagnitude ≤ q then (if neg then .negInf else .inf)
      else .finite (if neg then -q else q))

/-- The characters removed by Python `str.strip()`
(`Py_UNICODE_ISSPACE`): ASCII whitespace and control separators plus the
Unicode space separators. -/
def pyIsSpace (c : Char) : Bool :=
  c.toNat = 32 || (9 ≤ c.toNat && c.toNat ≤ 13) ||
    (28 ≤ c.toNat && c.toNat ≤ 31) || c.toNat = 133 || c.toNat = 160 ||
    c.toNat = 5760 || (8192 ≤ c.toNat && c.toNat ≤ 8202) ||
    c.toNat = 8232 || c.toNat = 8233 || c.toNat = 8239 ||
    c.toNat = 8287 || c.toNat = 12288

/-- Model of Python `str.strip()`: drop whitespace from both ends. -/
def pyStrip (s : String) : String :=
  ⟨((s.toList.dropWhile pyIsSpace).reverse.dropWhile pyIsSpace).reverse⟩

/-- Model of `re.findall(r'\d+', s)` restricted to its first match: the
first maximal run of decimal digits, as a number. -/
def firstNumber? : List Char → Option Nat
  | [] => none
  | c :: rest =>
    if c.isDigit then some (digitsToNat ((c :: rest).takeWhile Char.isDigit))
    else firstNumber? rest

/-- Model of Python `int(x)` on a float value: truncation toward zero. -/
def truncQ (q : ℚ) : Int :=
  if q < 0 then -(Int.floor (-q)) else Int.floor q

/-- The Python values `format_score` is fed: `None`, an `int`, a `float`,
a `str`, or a `dict` whose `value` / `displayValue` entries (when present)
are themselves such values. -/
inductive PyVal where
  | pynone : PyVal
  | pyint (n : Int) : PyVal
  | pyfloat (f : PyFloat) : PyVal
  | pystr (s : String) : PyVal
  | pydict (value : Option PyVal) (displayValue : Option PyVal) : PyVal

/-- Magnitude at which `float(int)` raises `OverflowError` ("int too
large to convert to float"); the rounding boundary is idealised to
`2^1024` as for literals. -/
def intFloatBound : Int :=
  ((179769313486231590772930519078902473361797697894230657273430081157732675805500963132708477322407536021120113879871393357658789768814416622492847430639474124377767893424865485276302219601246094119453082952085005768838150682342462881473913110540827237163350510684586298239947245938479716304835356329624224137216 : ℕ) : Int)

/-- Outcome of calling Python `float(x)` on a value. -/
inductive FloatCallResult where
  | val (f : PyFloat) : FloatCallResult
  | valueOrTypeError : FloatCallResult
  | overflow : FloatCallResult
  deriving DecidableEq

/-- Model of Python `float(x)`: floats pass through, an int converts
unless it exceeds the float range (`OverflowError`), a string parses
(`ValueError` on failure, after `float()`'s own whitespace stripping),
and `None` or a `dict` raises `TypeError`. -/
def pyFloatFn : PyVal → FloatCallResult
  | .pynone => .valueOrTypeError
  | .pyint n => if intFloatBound ≤ |n| then .overflow else .val (.finite n)
  | .pyfloat f => .val f
  | .pystr s =>
    match parseFloat (pyStrip s) with
    | some f => .val f
    | none => .valueOrTypeError
  | .pydict _ _ => .valueOrTypeError

/-- The one exception `format_score` lets escape: `int()` of an infinite
float, or `float()` of an out-of-range int, raises `OverflowError`,
which neither the inner `except ValueError` nor the outer
`except (ValueError, TypeError)` catches. -/
inductive PyExn where
  | overflowError : PyExn
  deriving DecidableEq

/-- Embedding of `format_score` from
`BasketballLive._draw_scorebug_layout` (src/basketball.py lines 151-185).
`Except.error` is the uncaught `OverflowError` path; the caught
`ValueError`/`TypeError` paths produce the in-code fallbacks: the regex
scan inside the string branch, `"0"` everywhere else. -/
def formatScore (score : PyVal) : Except PyExn String :=
  match score with
  | .pynone => .ok "0"
  | .pystr s0 =>
    let s := pyStrip s0
    if s = "" then .ok "0"
    else
      match parseFloat s with
      | some (.finite q) => .ok (intToDec (truncQ q))
      | some .inf => .error .overflowError
      | some .negInf => .error .overflowError
      | some .nan =>
        match firstNumber? s.toList with
        | some n => .ok (natToDec n)
        | none => .ok "0"
      | none =>
        match firstNumber? s.toList with
        | some n => .ok (natToDec n)
        | none => .ok "0"
  | .pydict value displayValue =>
    let scoreValue := value.getD (displayValue.getD (.pyint 0))
    match pyFloatFn scoreValue with
    | .val (.finite q) => .ok (intToDec (truncQ q))
    | .val .inf => .error .overflowError
    | .val .negInf => .error .overflowError
    | .val .nan => .ok "0"
    | .overflow => .error .overflowError
    | .valueOrTypeError => .ok "0"
  | .pyint n =>
    if intFloatBound ≤ |n| then .error .overflowError
    else .ok (intToDec (truncQ (n : ℚ)))
  | .pyfloat f =>
    match f with
    | .finite q => .ok (intToDec (truncQ q))
    | .inf => .error .overflowError
    | .negInf => .error .overflowError
    | .nan => .ok "0"

/-- A string that represents a non-negative integer: non-empty and made
of decimal digits only. -/
def isDigitString (s : String) : Bool :=
  !s.toList.isEmpty && s.toList.all Char.isDigit

/-- A string that represents an integer: decimal digits with an optional
leading minus sign. -/
def isIntString (s : String) : Bool :=
  isDigitString s ||
    (match s.toList with
     | '-' :: rest => !rest.isEmpty && rest.all Char.isDigit
     | _ => false)

/-- The inputs on which `format_score` raises `OverflowError`: the
float call on its evaluation path yields an infinity or overflows. -/
def raisesOverflow : PyVal → Prop
  | .pynone => False
  | .pyint n => intFloatBound ≤ |n|
  | .pyfloat .inf => True
  | .pyfloat .negInf => True
  | .pyfloat _ => False
  | .pystr s =>
    match parseFloat (pyStrip s) with
    | some .inf => True
    | some .negInf => True
    | _ => False
  | .pydict value displayValue =>
    match pyFloatFn (value.getD (displayValue.getD (.pyint 0))) with
    | .val .inf => True
    | .val .negInf => True
    | .overflow => True
    | _ => False

/-- The inputs whose float value on `format_score`'s path is finite and
non-negative, or that have no finite value at all (fallback paths). -/
def nonNegInput : PyVal → Prop
  | .pynone => True
  | .pyint n => 0 ≤ n ∧ |n| < intFloatBound
  | .pyfloat (.finite q) => 0 ≤ q
  | .pyfloat .nan => True
  | .pyfloat _ => False
  | .pystr s =>
    match parseFloat (pyStrip s) with
    | some (.finite q) => 0 ≤ q
    | some .nan => True
    | some _ => False
    | none => True
  | .pydict value displayValue =>
    match pyFloatFn (value.getD (displayValue.getD (.pyint 0))) with
    | .val (.finite q) => 0 ≤ q
    | .val .nan => True
    | .valueOrTypeError => True
    | _ => False

/-- The inputs whose float value on `format_score`'s path is a finite
value of at most `-1` (so that truncation keeps it negative). -/
def strictNegInput : PyVal → Prop
  | .pyint n => n < 0
  | .pyfloat (.finite q) => q ≤ -1
  | .pystr s =>
    match parseFloat (pyStrip s) with
    | some (.finite q) => q ≤ -1
    | _ => False
  | .pydict value displayValue =>
    match pyFloatFn (value.getD (displayValue.getD (.pyint 0))) with
    | .val (.finite q) => q ≤ -1
    | _ => False
  | _ => False

/-- The truly unparseable inputs: `None`, NaN values, strings that
neither parse to a finite float nor contain a digit, and dict values the
float call rejects. -/
def unparseableInput : PyVal → Prop
  | .pynone => True
  | .pyint _ => False
  | .pyfloat .nan => True
  | .pyfloat _ => False
  | .pystr s =>
    pyStrip s = "" ∨
      ((match parseFloat (pyStrip s) with
        | some .nan => True
        | none => True
        | _ => False) ∧ firstNumber? (pyStrip s).toList = none)
  | .pydict value displayValue =>
    match pyFloatFn (value.getD (displayValue.getD (.pyint 0))) with
    | .val .nan => True
    | .valueOrTypeError => True
    | _ => False

/-- Period/quarter labelling of `Basketball._extract_game_details`
(src/basketball.py lines 24-44).  `period` is `status.get("period", 0)`,
`state` is `status["type"]["state"]`, `name` is `status["type"]["name"]`,
and `gameTime` is `details.get("game_time", "")`. -/
def periodText (period : Int) (state : String) (name : String)
    (gameTime : String) : String :=
  if state = "in" then
    if period = 0 then "Start"
    else if 1 ≤ period ∧ period ≤ 4 then "Q" ++ intToDec period
    else "OT" ++ intToDec (period - 4)
  else if state = "halftime" ∨ name = "STATUS_HALFTIME" then "HALF"
  else if state = "post" then
    if 4 < period then "Final/OT" else "Final"
  else if state = "pre" then gameTime
  else ""

/-- The status-type block of an upstream event (`status["type"]`). -/
structure StatusType where
  state : String
  name : String

/-- The status block of an upstream event.  `displayClock` is read with
`status.get("displayClock", "0:00")`, hence optional. -/
structure GameStatus where
  period : Int
  displayClock : Option String
  statusType : StatusType

/-- The part of `_extract_game_details_common`'s `details` dictionary that
`_extract_game_details` reads.  A missing team abbreviation surfaces as
the empty string (Python tests it with `if not details['home_abbr']`,
which treats `None` and `""` alike). -/
structure CommonDetails where
  id : String
  homeAbbr : String
  awayAbbr : String
  gameTime : String

/-- The canonical game record produced by extraction. -/
structure GameRecord where
  id : String
  homeAbbr : String
  awayAbbr : String
  gameTime : String
  period : Int
  periodText : String
  clock : String

/-- Embedding of `Basketball._extract_game_details`
(src/basketball.py lines 18-62) downstream of
`_extract_game_details_common` (defined in the `sports` base module,
outside this repository snapshot): the common step's outcome is the
`Option` input.  `none` models both a failed common extraction and the
guard `if details is None or ... : return`. -/
def extractGameDetails (commonResult : Option (CommonDetails × GameStatus)) :
    Option GameRecord :=
  match commonResult with
  | none => none
  | some (d, st) =>
    let pt := periodText st.period st.statusType.state st.statusType.name
      d.gameTime
    if d.homeAbbr = "" ∨ d.awayAbbr = "" then none
    else
      some ⟨d.id, d.homeAbbr, d.awayAbbr, d.gameTime, st.period, pt,
        st.displayClock.getD "0:00"⟩

/-- Modelled from the spec: the per-event extraction loop lives in the
`sports` base module, which is not part of this repository snapshot; per
§4.3 "any single malformed event is rejected individually; it must not
abort extraction of the remaining events in the same response", so the
loop keeps exactly the events whose extraction succeeds. -/
def extractAll (events : List (Option (CommonDetails × GameStatus))) :
    List GameRecord :=
  events.filterMap extractGameDetails

/-- Per-league configuration slice read by `_get_available_modes`: the
`enabled` flag and the three `display_modes` flags (`show_live`,
`show_recent`, `show_upcoming`, each defaulting to true) with the
dictionary `get` defaults already resolved. -/
structure LeagueModesCfg where
  enabled : Bool
  showLive : Bool
  showRecent : Bool
  showUpcoming : Bool

/-- The modes one league contributes in `_get_available_modes`
(src/manager.py lines 338-376): nothing when disabled, else live, recent,
upcoming in that order, filtered by the flags. -/
def leagueModeList (tag : String) (c : LeagueModesCfg) : List String :=
  if c.enabled then
    (if c.showLive then [tag ++ "_live"] else []) ++
    (if c.showRecent then [tag ++ "_recent"] else []) ++
    (if c.showUpcoming then [tag ++ "_upcoming"] else [])
  else []

/-- Embedding of `BasketballScoreboardPlugin._get_available_modes`
(src/manager.py lines 325-382): leagues in the fixed order nba, wnba,
ncaam, ncaaw; default to the three NBA modes when nothing was
collected. -/
def getAvailableModes (nba wnba ncaam ncaaw : LeagueModesCfg) :
    List String :=
  let modes := leagueModeList "nba" nba ++ leagueModeList "wnba" wnba ++
    leagueModeList "ncaam" ncaam ++ leagueModeList "ncaaw" ncaaw
  if modes = [] then ["nba_live", "nba_recent", "nba_upcoming"] else modes

/-- The mode list the claim's wording describes (for comparison with
`getAvailableModes`): exactly the flag-selected modes of the enabled
leagues, with the built-in default only when zero leagues are enabled. -/
def claimAvailableModes (nba wnba ncaam ncaaw : LeagueModesCfg) :
    List String :=
  if nba.enabled ∨ wnba.enabled ∨ ncaam.enabled ∨ ncaaw.enabled then
    leagueModeList "nba" nba ++ leagueModeList "wnba" wnba ++
      leagueModeList "ncaam" ncaam ++ leagueModeList "ncaaw" ncaaw
  else ["nba_live", "nba_recent", "nba_upcoming"]

/-- `s.endswith(t)` on strings, via the underlying character lists. -/
def strEndsWith (s t : String) : Bool :=
  s.data.reverse.take t.data.length == t.data.reverse

/-- The team abbreviations of one live game as read by
`has_live_content`. -/
structure LiveGame where
  homeAbbr : String
  awayAbbr : String

/-- Per-league state read by `has_live_content` (src/manager.py lines
692-772): the `enabled` and `live_priority` config flags, and the live
manager's `live_games` and `favorite_teams` attributes.  A league's live
manager exists exactly when the league is enabled
(`_initialize_managers`), which models the `hasattr` checks. -/
structure LeagueLiveState where
  enabled : Bool
  livePriority : Bool
  liveGames : List LiveGame
  favoriteTeams : List String

/-- One league's contribution to `has_live_content`: enabled, with live
priority, some live game, and — when favourites are configured — a live
game involving a favourite. -/
def leagueHasLive (l : LeagueLiveState) : Bool :=
  l.enabled && l.livePriority && !l.liveGames.isEmpty &&
    (if l.favoriteTeams.isEmpty then true
     else l.liveGames.any (fun g =>
       l.favoriteTeams.contains g.homeAbbr ||
       l.favoriteTeams.contains g.awayAbbr))

/-- The plugin state consulted by the internal mode-cycling branch of
`display` (src/manager.py lines 604-635).  Times are rational numbers
(`time.time()` values). -/
structure CycleState where
  isEnabled : Bool
  modes : List String
  currentModeIndex : Nat
  lastModeSwitch : ℚ
  displayDuration : ℚ
  nba : LeagueLiveState
  wnba : LeagueLiveState
  ncaam : LeagueLiveState
  ncaaw : LeagueLiveState

/-- Embedding of `BasketballScoreboardPlugin.has_live_content`
(src/manager.py lines 692-772). -/
def hasLiveContent (s : CycleState) : Bool :=
  s.isEnabled &&
    (leagueHasLive s.nba || leagueHasLive s.wnba || leagueHasLive s.ncaam ||
      leagueHasLive s.ncaaw)

/-- Embedding of the mode-selection part of the internal cycling branch of
`BasketballScoreboardPlugin.display` (src/manager.py lines 604-635): the
live-content check, the forced switch to the first `_live` mode, and the
dwell-timer advance.  `now` is `time.time()`.  The subsequent render uses
`modes[currentModeIndex]` of the returned state. -/
def selectNextMode (s : CycleState) (now : ℚ) : CycleState :=
  let live := hasLiveContent s
  let currentMode := s.modes.getD s.currentModeIndex ""
  let shouldStayOnLive := live && strEndsWith currentMode "_live"
  let s1 :=
    if live && !shouldStayOnLive then
      match s.modes.findIdx? (fun m => strEndsWith m "_live") with
      | some i => { s with currentModeIndex := i, lastModeSwitch := now }
      | none => s
    else s
  if !shouldStayOnLive && s.displayDuration ≤ now - s1.lastModeSwitch then
    { s1 with
      currentModeIndex := (s1.currentModeIndex + 1) % s1.modes.length,
      lastModeSwitch := now }
  else s1

/-- The dynamic-duration configuration entries consulted for the current
(league, mode) display context, with the dictionary lookups resolved:
`config[league]["dynamic_duration"]["modes"][mode]`,
`config[league]["dynamic_duration"]`, and
`config["dynamic_duration"]["modes"][mode]`.  An `enabled` field is
`some b` when the key is present with truthiness `b`; a cap field is
`some c` when `max_duration_seconds` is present and `float()` of it
succeeds. -/
structure DynSettings where
  leagueModeEnabled : Option Bool
  leagueEnabled : Option Bool
  globalModeEnabled : Option Bool
  leagueModeCap : Option ℚ
  leagueCap : Option ℚ
  globalModeCap : Option ℚ

/-- Embedding of `BasketballScoreboardPlugin.supports_dynamic_duration`
(src/manager.py lines 897-932) for an enabled plugin with a current
display context.  `superSupports` is `super().supports_dynamic_duration()`
(the base-plugin global setting, outside this repository snapshot).
Resolution order as implemented: per-league-per-mode, then per-league,
then global-per-mode, then global. -/
def supportsDynamicDuration (d : DynSettings) (superSupports : Bool) :
    Bool :=
  match d.leagueModeEnabled with
  | some b => b
  | none =>
    match d.leagueEnabled with
    | some b => b
    | none =>
      match d.globalModeEnabled with
      | some b => b
      | none => superSupports

/-- The resolution order stated by the method's own docstring
("per-league/per-mode > per-mode > per-league > global") and by the spec's
override chain: per-league-per-mode, then global-per-mode, then
per-league, then global. -/
def docSupportsDynamicDuration (d : DynSettings) (superSupports : Bool) :
    Bool :=
  match d.leagueModeEnabled with
  | some b => b
  | none =>
    match d.globalModeEnabled with
    | some b => b
    | none =>
      match d.leagueEnabled with
      | some b => b
      | none => superSupports

/-- One level of the cap chain: a level yields a value only when
`max_duration_seconds` is present, parses, and is positive; otherwise the
code falls through to the next level. -/
def capLevel (v : Option ℚ) : Option ℚ :=
  v.bind (fun c => if 0 < c then some c else none)

/-- Embedding of `BasketballScoreboardPlugin.get_dynamic_duration_cap`
(src/manager.py lines 934-984) for an enabled plugin with a current
display context.  `superCap` is `super().get_dynamic_duration_cap()`.
Resolution order as implemented: per-league-per-mode, then per-league,
then global-per-mode, then global. -/
def getDynamicDurationCap (d : DynSettings) (superCap : Option ℚ) :
    Option ℚ :=
  match capLevel d.leagueModeCap with
  | some c => some c
  | none =>
    match capLevel d.leagueCap with
    | some c => some c
    | none =>
      match capLevel d.globalModeCap with
      | some c => some c
      | none => superCap

/-- The cap-resolution order stated by the method's own docstring and the
spec's override chain: per-league-per-mode, then global-per-mode, then
per-league, then global. -/
def docGetDynamicDurationCap (d : DynSettings) (superCap : Option ℚ) :
    Option ℚ :=
  match capLevel d.leagueModeCap with
  | some c => some c
  | none =>
    match capLevel d.globalModeCap with
    | some c => some c
    | none =>
      match capLevel d.leagueCap with
      | some c => some c
      | none => superCap

/-- An upstream schedule event, reduced to the `id` field that the
deduplication in `_fetch_ncaaw_api_data` reads. -/
structure ApiEvent where
  id : String
  deriving DecidableEq

/-- One step of NCAAW event deduplication: `all_events[event_id] = event`
on a Python dict — skip an event without an id, overwrite in place on a
repeated id, append otherwise. -/
def upsertEvent (acc : List (String × ApiEvent)) (e : ApiEvent) :
    List (String × ApiEvent) :=
  if e.id = "" then acc
  else if acc.any (fun p => p.1 = e.id) then
    acc.map (fun p => if p.1 = e.id then (p.1, e) else p)
  else acc ++ [(e.id, e)]

/-- The favourite-team aggregation loop of `_fetch_ncaaw_api_data`
(src/ncaaw_basketball_managers.py lines 150-164): resolve each favourite
to a team id (`_get_team_id`, `none` on failure), fetch that team's
schedule (`_fetch_team_schedule`, `none` on failure), and merge the
events deduplicated by event id. -/
def collectFavoriteEvents (teamIdOf : String → Option String)
    (scheduleOf : String → Option (List ApiEvent))
    (favorites : List String) : List (String × ApiEvent) :=
  favorites.foldl
    (fun acc t =>
      match teamIdOf t with
      | none => acc
      | some tid =>
        match scheduleOf tid with
        | none => acc
        | some evs => evs.foldl upsertEvent acc)
    []

/-- The upstream query a fetch ends up issuing (or the team-schedule
aggregate it returns instead). -/
inductive FetchQuery where
  | favoriteTeamSchedules : FetchQuery
  | currentDateScoreboard : FetchQuery
  | seasonRangeScoreboard (dates : String) : FetchQuery
  deriving DecidableEq

/-- Whether a query covers the full season date range. -/
def isSeasonLongQuery : FetchQuery → Bool
  | .seasonRangeScoreboard _ => true
  | _ => false

/-- Season-year selection shared by both NCAA fetchers: the season that
started the previous calendar year until November. -/
def seasonYearOf (year month : Nat) : Nat :=
  if month < 11 then year - 1 else year

/-- Query selection of `_fetch_ncaaw_api_data`
(src/ncaaw_basketball_managers.py lines 123-206) on a cache miss: with
favourite teams configured and at least one event aggregated from their
schedules, the merged team-schedule data is returned; otherwise the code
falls through to the current-date scoreboard request
(`params={"limit": 1000}`, no `dates` parameter). -/
def ncaawFetchQuery (teamIdOf : String → Option String)
    (scheduleOf : String → Option (List ApiEvent))
    (favorites : List String) : FetchQuery :=
  if favorites ≠ [] ∧ collectFavoriteEvents teamIdOf scheduleOf favorites ≠ []
  then .favoriteTeamSchedules
  else .currentDateScoreboard

/-- The `datestring` of `_fetch_ncaam_api_data`
(src/ncaam_basketball_managers.py line 64):
`f"{season_year}1101-{season_year+1}0430"`. -/
def ncaamDatestring (seasonYear : Nat) : String :=
  natToDec seasonYear ++ "1101-" ++ natToDec (seasonYear + 1) ++ "0430"

/-- Query selection of `_fetch_ncaam_api_data`
(src/ncaam_basketball_managers.py lines 54-148) on a cache miss: both the
background-service submission and the synchronous fetch pass
`params={"dates": datestring, "limit": 1000}` — always the season-long
date range, with no favourite-team schedule aggregation at all. -/
def ncaamFetchQuery (seasonYear : Nat) : FetchQuery :=
  .seasonRangeScoreboard (ncaamDatestring seasonYear)

/-- The manager attributes read by the dynamic-duration tracking: the
class name (used by `_build_manager_key`), the length of the games list
found by `_get_total_games_for_manager`, and `current_game_index` when
the manager exposes one. -/
structure ManagerState where
  className : String
  totalGames : Nat
  currentGameIndex : Option Nat

/-- `_build_manager_key` (src/manager.py lines 1100-1103). -/
def buildManagerKey (modeName : String) (m : ManagerState) : String :=
  modeName ++ ":" ++ m.className

/-- The dynamic-duration tracking state of the plugin
(src/manager.py lines 131-136): visited modes, mode→manager-key map,
per-key progress sets, completed keys, and the completion flag.  The
`"index-{i}"` progress identifiers are in bijection with the indices `i`
(constant prefix plus decimal), so the progress sets are modelled as sets
of indices. -/
structure DynState where
  modes : List String
  currentModeIndex : Nat
  seenModes : Finset String
  modeToManagerKey : String → Option String
  managerProgress : String → Finset ℕ
  managersCompleted : Finset String
  cycleComplete : Bool

/-- Embedding of `_record_dynamic_progress` (src/manager.py lines
1030-1062).  `featureEnabled` is `_dynamic_feature_enabled()`. -/
def recordDynamicProgress (featureEnabled : Bool) (s : DynState)
    (m : ManagerState) : DynState :=
  if !featureEnabled || s.modes.isEmpty then { s with cycleComplete := true }
  else
    let currentMode := s.modes.getD s.currentModeIndex ""
    let seen := insert currentMode s.seenModes
    let key := buildManagerKey currentMode m
    let m2k := fun md =>
      if md = currentMode then some key else s.modeToManagerKey md
    if m.totalGames ≤ 1 then
      { s with
        seenModes := seen, modeToManagerKey := m2k,
        managersCompleted := insert key s.managersCompleted }
    else
      let idx := m.currentGameIndex.getD 0
      let prog := insert idx (s.managerProgress key) ∩
        Finset.range m.totalGames
      let completed :=
        if m.totalGames ≤ prog.card then insert key s.managersCompleted
        else s.managersCompleted
      let progMap := fun k => if k = key then prog else s.managerProgress k
      { s with
        seenModes := seen, modeToManagerKey := m2k,
        managerProgress := progMap, managersCompleted := completed }

/-- The per-mode loop of `_evaluate_dynamic_cycle_completion`
(src/manager.py lines 1079-1098).  `gamesOf` is
`_get_total_games_for_manager(_get_manager_for_mode(mode))` — the current
game count of the mode's manager, `0` when it has none. -/
def evaluateCompletionGo (gamesOf : String → Nat) :
    List String → DynState → DynState
  | [], s => { s with cycleComplete := true }
  | modeName :: rest, s =>
    if modeName ∈ s.seenModes then
      match s.modeToManagerKey modeName with
      | none => { s with cycleComplete := false }
      | some key =>
        if key = "" then { s with cycleComplete := false }
        else if key ∈ s.managersCompleted then
          evaluateCompletionGo gamesOf rest s
        else if gamesOf modeName ≤ 1 then
          evaluateCompletionGo gamesOf rest
            { s with managersCompleted := insert key s.managersCompleted }
        else { s with cycleComplete := false }
    else { s with cycleComplete := false }

/-- Embedding of `_evaluate_dynamic_cycle_completion` (src/manager.py
lines 1064-1098). -/
def evaluateDynamicCycleCompletion (featureEnabled : Bool)
    (gamesOf : String → Nat) (s : DynState) : DynState :=
  if !featureEnabled then { s with cycleComplete := true }
  else if s.modes.isEmpty then { s with cycleComplete := true }
  else
    let required := s.modes.filter (fun m => m ≠ "")
    if required.isEmpty then { s with cycleComplete := true }
    else evaluateCompletionGo gamesOf required s

/-- Embedding of `reset_cycle_state` (src/manager.py lines 875-882); the
`super().reset_cycle_state()` call touches only base-plugin state outside
this snapshot. -/
def resetCycleState (s : DynState) : DynState :=
  { s with
    seenModes := ∅, modeToManagerKey := fun _ => none,
    managerProgress := fun _ => ∅, managersCompleted := ∅,
    cycleComplete := false }

/-- A configuration with NBA enabled but all three NBA display-mode flags
cleared, the other leagues disabled. -/
def nbaEnabledNoFlags : LeagueModesCfg := ⟨true, false, false, false⟩

/-- A disabled league (its display-mode flags are irrelevant). -/
def disabledLeague : LeagueModesCfg := ⟨false, true, true, true⟩

/-- Controller state with NBA enabled without live priority (and no live
games), NCAAW enabled with live priority and a live game involving the
favourite team UCONN; currently dwelling on `nba_recent`. -/
def mixedLiveState : CycleState where
  isEnabled := true
  modes := ["nba_live", "nba_recent", "nba_upcoming", "ncaaw_live",
    "ncaaw_recent", "ncaaw_upcoming"]
  currentModeIndex := 1
  lastModeSwitch := 0
  displayDuration := 30
  nba := ⟨true, false, [], []⟩
  wnba := ⟨false, false, [], []⟩
  ncaam := ⟨false, false, [], []⟩
  ncaaw := ⟨true, true, [⟨"UCONN", "SCAR"⟩], ["UCONN"]⟩

/-- Dynamic-duration settings with the per-league `enabled` key present
and false, the global per-mode `enabled` key present and true, and the
per-league cap 10 against a global per-mode cap 20. -/
def conflictingDynSettings : DynSettings where
  leagueModeEnabled := none
  leagueEnabled := some false
  globalModeEnabled := some true
  leagueModeCap := none
  leagueCap := some 10
  globalModeCap := some 20

/-- A dynamic-cycle state whose single registered mode has been visited
and whose manager key is recorded as completed. -/
def visitedCycleState : DynState where
  modes := ["nba_live"]
  currentModeIndex := 0
  seenModes := {"nba_live"}
  modeToManagerKey := fun md =>
    if md = "nba_live" then some "nba_live:NBALiveManager" else none
  managerProgress := fun _ => ∅
  managersCompleted := {"nba_live:NBALiveManager"}
  cycleComplete := false

/-- A dynamic-cycle state in which the recent manager's game indices 0
and 1 were already observed on earlier renders. -/
def twoSeenCycleState : DynState where
  modes := ["nba_recent"]
  currentModeIndex := 0
  seenModes := ∅
  modeToManagerKey := fun _ => none
  managerProgress := fun _ => {0, 1}
  managersCompleted := ∅
  cycleComplete := false

/-- A recent manager currently exposing three games and showing the third
one. -/
def threeGameManager : ManagerState := ⟨"NBARecentManager", 3, some 2⟩

/-- A dynamic-cycle state holding a stale observed index 4 from before
the manager's game list shrank. -/
def staleIndexCycleState : DynState where
  modes := ["wnba_upcoming"]
  currentModeIndex := 0
  seenModes := ∅
  modeToManagerKey := fun _ => none
  managerProgress := fun _ => {4}
  managersCompleted := ∅
  cycleComplete := false

/-- An upcoming manager now exposing only two games. -/
def shrunkManager : ManagerState := ⟨"WNBAUpcomingManager", 2, some 0⟩

theorem digitChar_isDigit (m : Nat) (h : m < 10) :
    (digitChar m).isDigit = true := by
  interval_cases m <;> decide

theorem decDigitsAux_digits (fuel : Nat) :
    ∀ n, ∀ c ∈ decDigitsAux fuel n, c.isDigit = true := by
  induction fuel with
  | zero => intro n c hc; simp [decDigitsAux] at hc
  | succ fuel ih =>
    intro n c hc
    simp only [decDigitsAux] at hc
    split at hc
    · simp only [List.mem_singleton] at hc
      subst hc
      exact digitChar_isDigit n (by assumption)
    · rcases List.mem_append.mp hc with h | h
      · exact ih _ c h
      · simp only [List.mem_singleton] at h
        subst h
        exact digitChar_isDigit _ (Nat.mod_lt _ (by norm_num))

theorem decDigitsAux_ne_nil (fuel n : Nat) : decDigitsAux (fuel + 1) n ≠ [] := by
  simp only [decDigitsAux]
  split
  · simp
  · simp

theorem isDigitString_natToDec (n : Nat) : isDigitString (natToDec n) = true := by
  rw [isDigitString, natToDec]
  show (!(decDigitsAux (n + 1) n).isEmpty &&
    (decDigitsAux (n + 1) n).all Char.isDigit) = true
  rw [Bool.and_eq_true, Bool.not_eq_true', List.all_eq_true]
  refine ⟨?_, fun c hc => decDigitsAux_digits (n + 1) n c hc⟩
  cases h : decDigitsAux (n + 1) n with
  | nil => exact absurd h (decDigitsAux_ne_nil n n)
  | cons c cs => rfl

theorem isDigitString_intToDec (i : Int) (h : 0 ≤ i) :
    isDigitString (intToDec i) = true := by
  rw [intToDec, if_neg (not_lt.mpr h)]
  exact isDigitString_natToDec _

theorem truncQ_nonneg (q : ℚ) (h : 0 ≤ q) : 0 ≤ truncQ q := by
  rw [truncQ, if_neg (not_lt.mpr h)]
  exact Int.floor_nonneg.mpr h

/-- Every string `intToDec` produces represents an integer: an optional
minus sign followed by decimal digits. -/
theorem isIntString_of_digits (s : String) (h : isDigitString s = true) :
    isIntString s = true := by
  rw [isIntString, h, Bool.true_or]

theorem isIntString_intToDec (i : Int) : isIntString (intToDec i) = true := by
  by_cases h : i < 0
  · rw [intToDec, if_pos h, isIntString]
    have hm : (match ("-" ++ natToDec (-i).toNat).toList with
        | '-' :: rest => !rest.isEmpty && rest.all Char.isDigit
        | _ => false) = true := by
      rw [show ("-" ++ natToDec (-i).toNat).toList =
        '-' :: (natToDec (-i).toNat).toList from rfl]
      have hd := isDigitString_natToDec (-i).toNat
      rw [isDigitString] at hd
      exact hd
    rw [hm, Bool.or_true]
  · exact isIntString_of_digits _ (isDigitString_intToDec i (by omega))

theorem intToDec_neg_of_not_digit (i : Int)
    (h : isDigitString (intToDec i) = false) : i < 0 := by
  by_contra hc
  rw [isDigitString_intToDec i (by omega)] at h
  exact absurd h (by decide)

theorem truncQ_neg_iff (q : ℚ) : truncQ q < 0 ↔ q ≤ -1 := by
  rw [truncQ]
  by_cases h : q < 0
  · rw [if_pos h]
    constructor
    · intro hlt
      have h1 : 0 < Int.floor (-q) := by omega
      have h2 : (1 : ℚ) ≤ -q := Int.floor_pos.mp h1
      linarith
    · intro hq
      have h2 : (1 : ℚ) ≤ -q := by linarith
      have h1 : 0 < Int.floor (-q) := Int.floor_pos.mpr h2
      omega
  · rw [if_neg h]
    push_neg at h
    constructor
    · intro hlt
      exact absurd hlt (not_lt.mpr (Int.floor_nonneg.mpr h))
    · intro hq
      exact absurd hq (by intro hc; linarith)

theorem truncQ_intCast (n : Int) : truncQ ((n : ℚ)) = n := by
  rw [truncQ]
  split
  · rw [← Int.cast_neg, Int.floor_intCast, neg_neg]
  · exact Int.floor_intCast n

/-- The five behaviour clauses at an input whose path reaches
`str(int(float(...)))` with a finite value `q`. -/
theorem finiteLeaf (v : PyVal) (q : ℚ)
    (hfs : formatScore v = .ok (intToDec (truncQ q)))
    (hro : ¬ raisesOverflow v)
    (hnn : nonNegInput v → 0 ≤ q)
    (hsn : q ≤ -1 → strictNegInput v)
    (hun : unparseableInput v → False) :
    (raisesOverflow v → formatScore v = .error .overflowError) ∧
    (¬ raisesOverflow v → ∃ s, formatScore v = .ok s ∧ isIntString s = true) ∧
    (nonNegInput v → ∃ s, formatScore v = .ok s ∧ isDigitString s = true) ∧
    (∀ s, formatScore v = .ok s → isDigitString s = false →
      strictNegInput v) ∧
    (unparseableInput v → formatScore v = .ok "0") := by
  refine ⟨fun h => absurd h hro, fun _ => ⟨_, hfs, isIntString_intToDec _⟩,
    fun h => ⟨_, hfs, isDigitString_intToDec _ (truncQ_nonneg _ (hnn h))⟩,
    ?_, fun h => absurd h hun⟩
  intro s hok hd
  rw [hfs] at hok
  injection hok with h1
  rw [← h1] at hd
  exact hsn ((truncQ_neg_iff q).mp (intToDec_neg_of_not_digit _ hd))

/-- The five behaviour clauses at an input whose path returns `"0"`
(caught `ValueError`/`TypeError`, or a value truncating to nothing). -/
theorem zeroLeaf (v : PyVal)
    (hfs : formatScore v = .ok "0")
    (hro : ¬ raisesOverflow v) :
    (raisesOverflow v → formatScore v = .error .overflowError) ∧
    (¬ raisesOverflow v → ∃ s, formatScore v = .ok s ∧ isIntString s = true) ∧
    (nonNegInput v → ∃ s, formatScore v = .ok s ∧ isDigitString s = true) ∧
    (∀ s, formatScore v = .ok s → isDigitString s = false →
      strictNegInput v) ∧
    (unparseableInput v → formatScore v = .ok "0") := by
  refine ⟨fun h => absurd h hro, fun _ => ⟨"0", hfs, by decide⟩,
    fun _ => ⟨"0", hfs, by decide⟩, ?_, fun _ => hfs⟩
  intro s hok hd
  rw [hfs] at hok
  injection hok with h1
  rw [← h1] at hd
  exact absurd hd (by decide)

/-- The five behaviour clauses at a string whose regex fallback finds the
digit run `k`. -/
theorem digitsLeaf (v : PyVal) (k : ℕ)
    (hfs : formatScore v = .ok (natToDec k))
    (hro : ¬ raisesOverflow v)
    (hun : unparseableInput v → False) :
    (raisesOverflow v → formatScore v = .error .overflowError) ∧
    (¬ raisesOverflow v → ∃ s, formatScore v = .ok s ∧ isIntString s = true) ∧
    (nonNegInput v → ∃ s, formatScore v = .ok s ∧ isDigitString s = true) ∧
    (∀ s, formatScore v = .ok s → isDigitString s = false →
      strictNegInput v) ∧
    (unparseableInput v → formatScore v = .ok "0") := by
  refine ⟨fun h => absurd h hro,
    fun _ => ⟨_, hfs, isIntString_of_digits _ (isDigitString_natToDec k)⟩,
    fun _ => ⟨_, hfs, isDigitString_natToDec k⟩, ?_, fun h => absurd h hun⟩
  intro s hok hd
  rw [hfs] at hok
  injection hok with h1
  rw [← h1, isDigitString_natToDec k] at hd
  exact absurd hd (by decide)

/-- The five behaviour clauses at an input on which the uncaught
`OverflowError` escapes. -/
theorem raiseLeaf (v : PyVal)
    (hfs : formatScore v = .error .overflowError)
    (hro : raisesOverflow v)
    (hnn : nonNegInput v → False)
    (hun : unparseableInput v → False) :
    (raisesOverflow v → formatScore v = .error .overflowError) ∧
    (¬ raisesOverflow v → ∃ s, formatScore v = .ok s ∧ isIntString s = true) ∧
    (nonNegInput v → ∃ s, formatScore v = .ok s ∧ isDigitString s = true) ∧
    (∀ s, formatScore v = .ok s → isDigitString s = false →
      strictNegInput v) ∧
    (unparseableInput v → formatScore v = .ok "0") := by
  refine ⟨fun _ => hfs, fun h => absurd hro h, fun h => absurd h hnn,
    ?_, fun h => absurd h hun⟩
  intro s hok _
  rw [hfs] at hok
  exact Except.noConfusion hok

/-- C1 counterexample: the numeric string `"-5"` is in the claimed input
domain yet yields `"-5"`, which does not represent a non-negative
integer, and the string `"inf"` makes `format_score` raise an uncaught
`OverflowError` instead of returning. -/
theorem formatScore_negative_and_raises :
    formatScore (.pystr "-5") = .ok "-5" ∧
    isDigitString "-5" = false ∧
    formatScore (.pystr "inf") = .error .overflowError := by
  exact ⟨rfl, by decide, rfl⟩

/-- C1 (amended): `format_score` raises exactly on the inputs whose float
conversion on its path yields an infinity or overflows, and then the
uncaught `OverflowError`; every other input of the claimed domain yields
a string of an optional minus sign and decimal digits — a plain digit
string whenever the path's value is non-negative or absent, with a minus
sign only when the parsed value is at most `-1` — and every truly
unparseable input yields `"0"`; the three quoted examples hold. -/
theorem formatScore_behaviour :
    (∀ v : PyVal,
      (raisesOverflow v → formatScore v = .error .overflowError) ∧
      (¬ raisesOverflow v →
        ∃ s, formatScore v = .ok s ∧ isIntString s = true) ∧
      (nonNegInput v →
        ∃ s, formatScore v = .ok s ∧ isDigitString s = true) ∧
      (∀ s, formatScore v = .ok s → isDigitString s = false →
        strictNegInput v) ∧
      (unparseableInput v → formatScore v = .ok "0")) ∧
    formatScore (.pystr "abc") = .ok "0" ∧
    formatScore (.pystr " 12 ") = .ok "12" ∧
    formatScore (.pydict (some (.pyfloat (.finite 7))) none) = .ok "7" := by
  refine ⟨?_, rfl, rfl, rfl⟩
  intro v
  match v with
  | .pynone => exact zeroLeaf _ rfl (fun h => h)
  | .pyint n =>
    by_cases hb : intFloatBound ≤ |n|
    · refine raiseLeaf _ ?_ hb (fun hnn => absurd hnn.2 (not_lt.mpr hb))
        (fun h => h)
      simp only [formatScore]
      rw [if_pos hb]
    · refine finiteLeaf _ ((n : ℚ)) ?_ hb (fun h => by exact_mod_cast h.1)
        (fun hq => ?_) (fun h => h)
      · simp only [formatScore]
        rw [if_neg hb]
      · have hn : n ≤ -1 := by exact_mod_cast hq
        show n < 0
        omega
  | .pyfloat f =>
    match f with
    | .finite q =>
      exact finiteLeaf _ q rfl (fun h => h) (fun h => h) (fun h => h)
        (fun h => h)
    | .inf => exact raiseLeaf _ rfl trivial (fun h => h) (fun h => h)
    | .negInf => exact raiseLeaf _ rfl trivial (fun h => h) (fun h => h)
    | .nan => exact zeroLeaf _ rfl (fun h => h)
  | .pystr s0 =>
    by_cases hs : pyStrip s0 = ""
    · have hp : parseFloat (pyStrip s0) = none := by
        rw [hs]
        rfl
      refine zeroLeaf _ ?_ ?_
      · simp only [formatScore]
        rw [if_pos hs]
      · simp [raisesOverflow, hp]
    · cases hp : parseFloat (pyStrip s0) with
      | none =>
        cases hf : firstNumber? (pyStrip s0).toList with
        | some k =>
          refine digitsLeaf _ k ?_ (by simp [raisesOverflow, hp]) ?_
          · simp only [formatScore]
            rw [if_neg hs, hp]
            dsimp only
            rw [hf]
          · rintro (h1 | ⟨_, h2⟩)
            · exact hs h1
            · rw [hf] at h2
              exact Option.noConfusion h2
        | none =>
          refine zeroLeaf _ ?_ (by simp [raisesOverflow, hp])
          simp only [formatScore]
          rw [if_neg hs, hp]
          dsimp only
          rw [hf]
      | some f =>
        match f with
        | .finite q =>
          refine finiteLeaf _ q ?_ (by simp [raisesOverflow, hp]) ?_ ?_ ?_
          · simp only [formatScore]
            rw [if_neg hs, hp]
          · intro h
            simp only [nonNegInput] at h
            rw [hp] at h
            exact h
          · intro hq
            simp only [strictNegInput]
            rw [hp]
            exact hq
          · rintro (h1 | ⟨h2, _⟩)
            · exact hs h1
            · rw [hp] at h2
              exact h2.elim
        | .inf =>
          refine raiseLeaf _ ?_ (by simp [raisesOverflow, hp]) ?_ ?_
          · simp only [formatScore]
            rw [if_neg hs, hp]
          · intro h
            simp only [nonNegInput] at h
            rw [hp] at h
            exact h.elim
          · rintro (h1 | ⟨h2, _⟩)
            · exact hs h1
            · rw [hp] at h2
              exact h2.elim
        | .negInf =>
          refine raiseLeaf _ ?_ (by simp [raisesOverflow, hp]) ?_ ?_
          · simp only [formatScore]
            rw [if_neg hs, hp]
          · intro h
            simp only [nonNegInput] at h
            rw [hp] at h
            exact h.elim
          · rintro (h1 | ⟨h2, _⟩)
            · exact hs h1
            · rw [hp] at h2
              exact h2.elim
        | .nan =>
          cases hf : firstNumber? (pyStrip s0).toList with
          | some k =>
            refine digitsLeaf _ k ?_ (by simp [raisesOverflow, hp]) ?_
            · simp only [formatScore]
              rw [if_neg hs, hp]
              dsimp only
              rw [hf]
            · rintro (h1 | ⟨_, h2⟩)
              · exact hs h1
              · rw [hf] at h2
                exact Option.noConfusion h2
          | none =>
            refine zeroLeaf _ ?_ (by simp [raisesOverflow, hp])
            simp only [formatScore]
            rw [if_neg hs, hp]
            dsimp only
            rw [hf]
  | .pydict a b =>
    cases hp : pyFloatFn (a.getD (b.getD (.pyint 0))) with
    | val f =>
      match f with
      | .finite q =>
        refine finiteLeaf _ q ?_ (by simp [raisesOverflow, hp]) ?_ ?_ ?_
        · simp only [formatScore]
          rw [hp]
        · intro h
          simp only [nonNegInput] at h
          rw [hp] at h
          exact h
        · intro hq
          simp only [strictNegInput]
          rw [hp]
          exact hq
        · intro h
          simp only [unparseableInput] at h
          rw [hp] at h
          exact h.elim
      | .inf =>
        refine raiseLeaf _ ?_ (by simp [raisesOverflow, hp]) ?_ ?_
        · simp only [formatScore]
          rw [hp]
        · intro h
          simp only [nonNegInput] at h
          rw [hp] at h
          exact h.elim
        · intro h
          simp only [unparseableInput] at h
          rw [hp] at h
          exact h.elim
      | .negInf =>
        refine raiseLeaf _ ?_ (by simp [raisesOverflow, hp]) ?_ ?_
        · simp only [formatScore]
          rw [hp]
        · intro h
          simp only [nonNegInput] at h
          rw [hp] at h
          exact h.elim
        · intro h
          simp only [unparseableInput] at h
          rw [hp] at h
          exact h.elim
      | .nan =>
        refine zeroLeaf _ ?_ (by simp [raisesOverflow, hp])
        simp only [formatScore]
        rw [hp]
    | overflow =>
      refine raiseLeaf _ ?_ (by simp [raisesOverflow, hp]) ?_ ?_
      · simp only [formatScore]
        rw [hp]
      · intro h
        simp only [nonNegInput] at h
        rw [hp] at h
        exact h.elim
      · intro h
        simp only [unparseableInput] at h
        rw [hp] at h
        exact h.elim
    | valueOrTypeError =>
      refine zeroLeaf _ ?_ (by simp [raisesOverflow, hp])
      simp only [formatScore]
      rw [hp]

/-- Witness for C1's amended theorem at the concrete input `21`. -/
theorem formatScore_behaviour_witness :
    ∃ s, formatScore (.pyint 21) = .ok s ∧ isDigitString s = true :=
  (formatScore_behaviour.1 (.pyint 21)).2.2.1 ⟨by decide, by decide⟩

/-- C2 counterexample: period text is not a pure function of
`(period, status_state)` — with period 2 and state `"post"` the output
also depends on the status name, because a `STATUS_HALFTIME` name takes
the `"HALF"` branch before the `"post"` branch is reached. -/
theorem periodText_depends_on_status_name :
    periodText 2 "post" "STATUS_HALFTIME" "" = "HALF" ∧
    periodText 2 "post" "STATUS_FINAL" "" = "Final" ∧
    periodText 2 "post" "STATUS_HALFTIME" "" ≠
      periodText 2 "post" "STATUS_FINAL" "" := by
  decide

/-- C2 (amended): period-text derivation is a pure function of
`(period, status_state, status_name, scheduled time)`: for state `"in"`
the claimed mapping holds for every status name (period 0 gives
`"Start"`, periods 1-4 give `"Q{n}"`, periods above 4 give `"OT{n-4}"`,
the `"in"` branch preceding the halftime check); for any other state, a
`"halftime"` state or a `STATUS_HALFTIME` name gives `"HALF"` for every
period; otherwise state `"post"` gives `"Final/OT"` above period 4 and
`"Final"` otherwise, and state `"pre"` gives the scheduled start time
string; in particular period 6 live is `"OT2"` and period 5 final (with
an ordinary final name) is `"Final/OT"`. -/
theorem periodText_spec (p : Int) (state name gameTime : String) :
    periodText 0 "in" name gameTime = "Start" ∧
    (1 ≤ p → p ≤ 4 → periodText p "in" name gameTime = "Q" ++ intToDec p) ∧
    (4 < p → periodText p "in" name gameTime = "OT" ++ intToDec (p - 4)) ∧
    (state ≠ "in" → state = "halftime" ∨ name = "STATUS_HALFTIME" →
      periodText p state name gameTime = "HALF") ∧
    (name ≠ "STATUS_HALFTIME" → 4 < p →
      periodText p "post" name gameTime = "Final/OT") ∧
    (name ≠ "STATUS_HALFTIME" → p ≤ 4 →
      periodText p "post" name gameTime = "Final") ∧
    (name ≠ "STATUS_HALFTIME" →
      periodText p "pre" name gameTime = gameTime) ∧
    periodText 6 "in" name gameTime = "OT2" ∧
    (name ≠ "STATUS_HALFTIME" →
      periodText 5 "post" name gameTime = "Final/OT") := by
  refine ⟨by simp [periodText], ?_, ?_, ?_, ?_, ?_, ?_, ?_, ?_⟩
  · intro h1 h4
    rw [periodText, if_pos rfl, if_neg (by omega),
      if_pos (And.intro h1 h4)]
  · intro h4
    rw [periodText, if_pos rfl, if_neg (by omega), if_neg (by omega)]
  · intro hst hdisj
    rw [periodText, if_neg hst, if_pos hdisj]
  · intro h h4
    rw [periodText, if_neg (by decide),
      if_neg (by simp [h]), if_pos rfl, if_pos h4]
  · intro h h4
    rw [periodText, if_neg (by decide),
      if_neg (by simp [h]), if_pos rfl, if_neg (not_lt.mpr h4)]
  · intro h
    rw [periodText, if_neg (by decide), if_neg (by simp [h]),
      if_neg (by decide), if_pos rfl]
  · rw [periodText, if_pos rfl, if_neg (by omega), if_neg (by omega)]
    decide
  · intro h
    rw [periodText, if_neg (by decide), if_neg (by simp [h]),
      if_pos rfl, if_pos (by omega)]

/-- Witness for C2's amended theorem: a halftime status name with a
non-live state yields `"HALF"`. -/
theorem periodText_spec_witness :
    periodText 2 "halftime" "STATUS_HALFTIME" "" = "HALF" :=
  (periodText_spec 2 "halftime" "STATUS_HALFTIME" "").2.2.2.1
    (by decide) (Or.inl rfl)


/-- C3 counterexample: NCAAW is the only league with live-priority live
content (a live game of favourite UCONN), the controller dwells on
`nba_recent`, yet the next render targets `nba_live` — the first live
mode in registry order — not NCAAW's live mode. -/
theorem liveContent_switch_wrong_league :
    hasLiveContent mixedLiveState = true ∧
    leagueHasLive mixedLiveState.nba = false ∧
    leagueHasLive mixedLiveState.wnba = false ∧
    leagueHasLive mixedLiveState.ncaam = false ∧
    leagueHasLive mixedLiveState.ncaaw = true ∧
    mixedLiveState.modes.getD mixedLiveState.currentModeIndex "" =
      "nba_recent" ∧
    (selectNextMode mixedLiveState 5).currentModeIndex = 0 ∧
    mixedLiveState.modes.getD 0 "" = "nba_live" := by
  refine ⟨rfl, rfl, rfl, rfl, rfl, rfl, ?_, rfl⟩
  have hcur : strEndsWith
      (mixedLiveState.modes.getD mixedLiveState.currentModeIndex "")
      "_live" = false := rfl
  have hlive : hasLiveContent mixedLiveState = true := rfl
  have hfind : mixedLiveState.modes.findIdx?
      (fun m => strEndsWith m "_live") = some 0 := rfl
  have hdur0 : ¬ mixedLiveState.displayDuration ≤ 0 := by
    norm_num [mixedLiveState]
  simp only [List.getD_eq_getElem?_getD] at hcur
  simp [selectNextMode, hlive, hcur, hfind, hdur0]

/-- C3 (amended): whenever some enabled league with live priority has a
live game (for a favourite team, or any live game without favourites),
the next render targets the first `_live` mode of the registry sequence
— regardless of the dwell timer (for a positive dwell duration), though
not necessarily the live league's own live mode — and while live content
exists and the current mode is a live mode, the controller stays on it
unchanged. -/
theorem liveContent_preempts_cycling (s : CycleState) (now : ℚ)
    (hlive : hasLiveContent s = true) :
    (strEndsWith (s.modes.getD s.currentModeIndex "") "_live" = true →
      selectNextMode s now = s) ∧
    (∀ i, strEndsWith (s.modes.getD s.currentModeIndex "") "_live" = false →
      s.modes.findIdx? (fun m => strEndsWith m "_live") = some i →
      0 < s.displayDuration →
      (selectNextMode s now).currentModeIndex = i) := by
  constructor
  · intro hcur
    simp only [List.getD_eq_getElem?_getD] at hcur
    simp [selectNextMode, hlive, hcur]
  · intro i hcur hfind hdur
    have hdur' : ¬ s.displayDuration ≤ 0 := not_le.mpr hdur
    simp only [List.getD_eq_getElem?_getD] at hcur
    simp [selectNextMode, hlive, hcur, hfind, sub_self, hdur']

/-- Witness for C3's amended theorem on the concrete mixed-league
state. -/
theorem liveContent_preempts_cycling_witness :
    (selectNextMode mixedLiveState 7).currentModeIndex = 0 :=
  (liveContent_preempts_cycling mixedLiveState 7 rfl).2 0
    rfl rfl (by norm_num [mixedLiveState])

/-- C4: the implemented resolution order contradicts the override chain
documented in the methods' own docstrings and the spec — with the
per-league `enabled` key present (false) and the global per-mode
`enabled` key present (true), the code resolves to the per-league value
(false / cap 10) while the documented chain resolves to the per-mode
value (true / cap 20). -/
theorem dynamicDuration_resolution_diverges :
    supportsDynamicDuration conflictingDynSettings true = false ∧
    docSupportsDynamicDuration conflictingDynSettings true = true ∧
    getDynamicDurationCap conflictingDynSettings none = some 10 ∧
    docGetDynamicDurationCap conflictingDynSettings none = some 20 := by
  refine ⟨rfl, rfl, ?_, ?_⟩ <;>
    norm_num [getDynamicDurationCap, docGetDynamicDurationCap, capLevel,
      conflictingDynSettings]

/-- C5 counterexample: an NCAAW recent/upcoming fetch with no favourite
teams configured falls back to the current-date scoreboard query, which
is not a full-date-range (season-long) query. -/
theorem ncaawFallback_not_season_long :
    ncaawFetchQuery (fun _ => none) (fun _ => none) [] =
      FetchQuery.currentDateScoreboard ∧
    isSeasonLongQuery FetchQuery.currentDateScoreboard = false :=
  ⟨rfl, rfl⟩

/-- C5 (amended): when no favourite teams are configured, or the
favourite-team schedule fetches yield no events, the NCAAW fetcher falls
back to a current-date scoreboard query (not a season-long one), while
the NCAAM fetcher always issues the full-date-range season-long
scoreboard query (it never aggregates team schedules at all). -/
theorem fallbackQueries_by_league (teamIdOf : String → Option String)
    (scheduleOf : String → Option (List ApiEvent))
    (favorites : List String) (seasonYear : Nat)
    (h : favorites = [] ∨
      collectFavoriteEvents teamIdOf scheduleOf favorites = []) :
    ncaawFetchQuery teamIdOf scheduleOf favorites =
      FetchQuery.currentDateScoreboard ∧
    ncaamFetchQuery seasonYear =
      FetchQuery.seasonRangeScoreboard (ncaamDatestring seasonYear) ∧
    isSeasonLongQuery (ncaamFetchQuery seasonYear) = true := by
  refine ⟨?_, rfl, rfl⟩
  rw [ncaawFetchQuery, if_neg]
  rcases h with h | h
  · rintro ⟨h1, _⟩; exact h1 h
  · rintro ⟨_, h2⟩; exact h2 h

/-- Witness for C5's amended theorem: one favourite team whose schedule
lookup yields nothing. -/
theorem fallbackQueries_by_league_witness :
    ncaawFetchQuery (fun _ => none) (fun _ => some []) ["UCONN"] =
      FetchQuery.currentDateScoreboard :=
  (fallbackQueries_by_league (fun _ => none) (fun _ => some [])
    ["UCONN"] 2025 (Or.inr rfl)).1

theorem evaluateCompletionGo_sound (gamesOf : String → Nat) :
    ∀ (l : List String) (s : DynState),
      (∀ m1 m2 k, s.modeToManagerKey m1 = some k →
        s.modeToManagerKey m2 = some k → m1 = m2) →
      (evaluateCompletionGo gamesOf l s).cycleComplete = true →
      ∀ mode ∈ l, mode ∈ s.seenModes ∧
        ∃ k, s.modeToManagerKey mode = some k ∧
          (k ∈ s.managersCompleted ∨ gamesOf mode ≤ 1) := by
  intro l
  induction l with
  | nil => intro s _ _ mode hmode; simp at hmode
  | cons m rest ih =>
    intro s hinj hcomp mode hmode
    simp only [evaluateCompletionGo] at hcomp
    by_cases hseen : m ∈ s.seenModes
    · rw [if_pos hseen] at hcomp
      cases hk : s.modeToManagerKey m with
      | none => rw [hk] at hcomp; simp at hcomp
      | some key =>
        rw [hk] at hcomp
        dsimp only at hcomp
        by_cases hke : key = ""
        · rw [if_pos hke] at hcomp; simp at hcomp
        · rw [if_neg hke] at hcomp
          by_cases hkc : key ∈ s.managersCompleted
          · rw [if_pos hkc] at hcomp
            rcases List.mem_cons.mp hmode with rfl | hmem
            · exact ⟨hseen, key, hk, Or.inl hkc⟩
            · exact ih s hinj hcomp mode hmem
          · rw [if_neg hkc] at hcomp
            by_cases hg : gamesOf m ≤ 1
            · rw [if_pos hg] at hcomp
              rcases List.mem_cons.mp hmode with rfl | hmem
              · exact ⟨hseen, key, hk, Or.inr hg⟩
              · obtain ⟨hs, k', hk', hor⟩ :=
                  ih
                    { s with
                      managersCompleted := insert key s.managersCompleted }
                    hinj hcomp mode hmem
                refine ⟨hs, k', hk', ?_⟩
                rcases hor with hin | hle
                · rcases Finset.mem_insert.mp hin with rfl | hin2
                  · have hmm : mode = m := hinj mode m k' hk' hk
                    exact Or.inr (hmm ▸ hg)
                  · exact Or.inl hin2
                · exact Or.inr hle
            · rw [if_neg hg] at hcomp; simp at hcomp
    · rw [if_neg hseen] at hcomp; simp at hcomp

/-- C6: with dynamic duration enabled and a non-empty mode list, the
evaluation marks the cycle complete only if every registered mode has
been visited and has a recorded manager key that is either already
completed or backed by a manager currently exposing at most one game;
and `reset_cycle_state` clears all tracking sets and lowers the
completion flag. -/
theorem dynamicCycleCompletion_requires_all_modes (gamesOf : String → Nat)
    (s : DynState) (hmodes : s.modes ≠ [])
    (hne : ∀ m ∈ s.modes, m ≠ "")
    (hinj : ∀ m1 m2 k, s.modeToManagerKey m1 = some k →
      s.modeToManagerKey m2 = some k → m1 = m2) :
    ((evaluateDynamicCycleCompletion true gamesOf s).cycleComplete = true →
      ∀ mode ∈ s.modes, mode ∈ s.seenModes ∧
        ∃ k, s.modeToManagerKey mode = some k ∧
          (k ∈ s.managersCompleted ∨ gamesOf mode ≤ 1)) ∧
    (resetCycleState s).seenModes = ∅ ∧
    (resetCycleState s).modeToManagerKey = (fun _ => none) ∧
    (resetCycleState s).managerProgress = (fun _ => ∅) ∧
    (resetCycleState s).managersCompleted = ∅ ∧
    (resetCycleState s).cycleComplete = false := by
  refine ⟨?_, rfl, rfl, rfl, rfl, rfl⟩
  intro hcomp mode hmode
  have hempty : s.modes.isEmpty = false := by
    cases h : s.modes with
    | nil => exact absurd h hmodes
    | cons a t => rfl
  have hfilter : s.modes.filter (fun m => m ≠ "") = s.modes :=
    List.filter_eq_self.mpr (fun a ha => by simpa using hne a ha)
  simp only [evaluateDynamicCycleCompletion, hempty, hfilter,
    Bool.not_true, Bool.false_eq_true, if_false] at hcomp
  exact evaluateCompletionGo_sound gamesOf s.modes s hinj hcomp mode hmode

/-- Witness for C6's theorem on a one-mode state whose manager key is
recorded as completed. -/
theorem dynamicCycleCompletion_requires_all_modes_witness :
    "nba_live" ∈ visitedCycleState.seenModes ∧
    ∃ k, visitedCycleState.modeToManagerKey "nba_live" = some k ∧
      (k ∈ visitedCycleState.managersCompleted ∨ (fun _ => 3) "nba_live" ≤ 1) :=
  (dynamicCycleCompletion_requires_all_modes (fun _ => 3) visitedCycleState
      (by decide) (by decide)
      (by
        intro m1 m2 k h1 h2
        simp only [visitedCycleState] at h1 h2
        by_cases e1 : m1 = "nba_live"
        · by_cases e2 : m2 = "nba_live"
          · rw [e1, e2]
          · rw [if_neg e2] at h2; exact absurd h2 (by simp)
        · rw [if_neg e1] at h1; exact absurd h1 (by simp))).1
    (by decide) "nba_live" (by decide)

/-- C7: under dynamic duration, a manager exposing at most one game is
marked complete by the very call that records it, and a manager exposing
`n ≥ 2` games becomes complete exactly when (besides being complete
already) the recorded progress set — the distinct game indices observed
across renders, pruned to the current list — covers all `n` indices. -/
theorem recordProgress_completion (s : DynState) (m : ManagerState)
    (hmodes : s.modes ≠ []) :
    (m.totalGames ≤ 1 →
      buildManagerKey (s.modes.getD s.currentModeIndex "") m ∈
        (recordDynamicProgress true s m).managersCompleted) ∧
    (2 ≤ m.totalGames →
      (buildManagerKey (s.modes.getD s.currentModeIndex "") m ∈
          (recordDynamicProgress true s m).managersCompleted ↔
        buildManagerKey (s.modes.getD s.currentModeIndex "") m ∈
            s.managersCompleted ∨
          (recordDynamicProgress true s m).managerProgress
              (buildManagerKey (s.modes.getD s.currentModeIndex "") m) =
            Finset.range m.totalGames)) := by
  have hempty : s.modes.isEmpty = false := by
    cases h : s.modes with
    | nil => exact absurd h hmodes
    | cons a t => rfl
  constructor
  · intro h1
    simp only [recordDynamicProgress, hempty, Bool.not_true,
      Bool.false_or, Bool.false_eq_true, if_false, if_pos h1]
    exact Finset.mem_insert_self _ _
  · intro h2
    have h1' : ¬ m.totalGames ≤ 1 := by omega
    simp only [recordDynamicProgress, hempty, Bool.not_true,
      Bool.false_or, Bool.false_eq_true, if_false, if_neg h1']
    rw [if_pos trivial]
    constructor
    · intro hmem
      by_cases hcard : m.totalGames ≤
        (insert (m.currentGameIndex.getD 0)
          (s.managerProgress (buildManagerKey
            (s.modes.getD s.currentModeIndex "") m)) ∩
          Finset.range m.totalGames).card
      · rw [if_pos hcard] at hmem
        exact Or.inr (Finset.eq_of_subset_of_card_le
          Finset.inter_subset_right
          (by rw [Finset.card_range]; exact hcard))
      · rw [if_neg hcard] at hmem
        exact Or.inl hmem
    · intro hor
      rcases hor with hin | heq
      · split
        · exact Finset.mem_insert_of_mem hin
        · exact hin
      · have hcard : m.totalGames ≤
            (insert (m.currentGameIndex.getD 0)
              (s.managerProgress (buildManagerKey
                (s.modes.getD s.currentModeIndex "") m)) ∩
              Finset.range m.totalGames).card := by
          rw [heq, Finset.card_range]
        rw [if_pos hcard]
        exact Finset.mem_insert_self _ _

/-- Witness for C7's theorem: a three-game manager whose indices 0 and 1
were already observed becomes complete on observing index 2. -/
theorem recordProgress_completion_witness :
    buildManagerKey (twoSeenCycleState.modes.getD
        twoSeenCycleState.currentModeIndex "") threeGameManager ∈
      (recordDynamicProgress true twoSeenCycleState
        threeGameManager).managersCompleted :=
  ((recordProgress_completion twoSeenCycleState threeGameManager
      (by decide)).2 (by decide)).mpr (Or.inr (by decide))

/-- C10: after recording progress for a manager currently exposing at
least two games, that manager's stored progress set is a subset of the
valid identifiers for its current game count — stale indices from a
shrunken game list are pruned before the completion test. -/
theorem recordProgress_prunes_to_current (s : DynState) (m : ManagerState)
    (h2 : 2 ≤ m.totalGames) (hmodes : s.modes ≠ []) :
    (recordDynamicProgress true s m).managerProgress
        (buildManagerKey (s.modes.getD s.currentModeIndex "") m) ⊆
      Finset.range m.totalGames := by
  have hempty : s.modes.isEmpty = false := by
    cases h : s.modes with
    | nil => exact absurd h hmodes
    | cons a t => rfl
  have h1' : ¬ m.totalGames ≤ 1 := by omega
  simp only [recordDynamicProgress, hempty, Bool.not_true,
    Bool.false_or, Bool.false_eq_true, if_false, if_neg h1']
  rw [if_pos trivial]
  exact Finset.inter_subset_right

/-- Witness for C10's theorem: a stale observed index 4 against a
manager now exposing only two games. -/
theorem recordProgress_prunes_to_current_witness :
    (recordDynamicProgress true staleIndexCycleState
        shrunkManager).managerProgress
        (buildManagerKey (staleIndexCycleState.modes.getD
          staleIndexCycleState.currentModeIndex "") shrunkManager) ⊆
      Finset.range shrunkManager.totalGames :=
  recordProgress_prunes_to_current staleIndexCycleState shrunkManager
    (by decide) (by decide)

/-- C8: an event whose extracted home or away abbreviation is missing or
empty is rejected (extraction yields `none`, never a record), and a
rejected event does not disturb the extraction of the events around it
in the same response. -/
theorem extraction_rejects_missing_abbr :
    (∀ (d : CommonDetails) (st : GameStatus),
      d.homeAbbr = "" ∨ d.awayAbbr = "" →
      extractGameDetails (some (d, st)) = none) ∧
    (∀ (earlier later : List (Option (CommonDetails × GameStatus)))
      (bad : Option (CommonDetails × GameStatus)),
      extractGameDetails bad = none →
      extractAll (earlier ++ bad :: later) =
        extractAll earlier ++ extractAll later) := by
  constructor
  · intro d st h
    simp only [extractGameDetails]
    rw [if_pos h]
  · intro earlier later bad hbad
    simp [extractAll, List.filterMap_append, List.filterMap_cons, hbad]

/-- Witness for C8's theorem: an in-progress event with an empty home
abbreviation is rejected. -/
theorem extraction_rejects_missing_abbr_witness :
    extractGameDetails (some (⟨"401585601", "", "LAL", "7:30 PM"⟩,
      ⟨2, some "5:00", ⟨"in", "STATUS_IN_PROGRESS"⟩⟩)) = none :=
  extraction_rejects_missing_abbr.1 _ _ (Or.inl rfl)

/-- C9 counterexample: with NBA enabled but all three of its display-mode
flags cleared (and the other leagues disabled), the registry returns the
three built-in NBA default modes even though no mode's flag is set — the
claimed flag-exact list would be empty. -/
theorem availableModes_default_despite_flags :
    getAvailableModes nbaEnabledNoFlags disabledLeague disabledLeague
        disabledLeague = ["nba_live", "nba_recent", "nba_upcoming"] ∧
    claimAvailableModes nbaEnabledNoFlags disabledLeague disabledLeague
        disabledLeague = [] ∧
    nbaEnabledNoFlags.enabled = true ∧
    nbaEnabledNoFlags.showLive = false ∧
    nbaEnabledNoFlags.showRecent = false ∧
    nbaEnabledNoFlags.showUpcoming = false := by
  decide

/-- C9 (amended): the registry lists enabled leagues in the fixed order
nba, wnba, ncaam, ncaaw with live, recent, upcoming per flags — exactly
the flag-selected modes whenever at least one survives — and falls back
to the three built-in NBA modes whenever no mode survives the flags
(zero leagues enabled, or every enabled league has all flags cleared),
so the result is never empty. -/
theorem availableModes_characterization
    (nba wnba ncaam ncaaw : LeagueModesCfg) :
    getAvailableModes nba wnba ncaam ncaaw ≠ [] ∧
    (leagueModeList "nba" nba ++ leagueModeList "wnba" wnba ++
        leagueModeList "ncaam" ncaam ++ leagueModeList "ncaaw" ncaaw ≠ [] →
      getAvailableModes nba wnba ncaam ncaaw =
        leagueModeList "nba" nba ++ leagueModeList "wnba" wnba ++
          leagueModeList "ncaam" ncaam ++ leagueModeList "ncaaw" ncaaw) ∧
    (leagueModeList "nba" nba ++ leagueModeList "wnba" wnba ++
        leagueModeList "ncaam" ncaam ++ leagueModeList "ncaaw" ncaaw = [] →
      getAvailableModes nba wnba ncaam ncaaw =
        ["nba_live", "nba_recent", "nba_upcoming"]) := by
  refine ⟨?_, ?_, ?_⟩
  · simp only [getAvailableModes]
    split
    · simp
    · assumption
  · intro h
    simp only [getAvailableModes]
    rw [if_neg h]
  · intro h
    simp only [getAvailableModes]
    rw [if_pos h]

/-- Witness for C9's amended theorem: all leagues' flags on for NBA, the
rest disabled. -/
theorem availableModes_characterization_witness :
    getAvailableModes ⟨true, true, true, true⟩ ⟨false, true, true, true⟩
        ⟨false, true, true, true⟩ ⟨false, true, true, true⟩ =
      leagueModeList "nba" ⟨true, true, true, true⟩ ++
        leagueModeList "wnba" ⟨false, true, true, true⟩ ++
        leagueModeList "ncaam" ⟨false, true, true, true⟩ ++
        leagueModeList "ncaaw" ⟨false, true, true, true⟩ :=
  (availableModes_characterization _ _ _ _).2.1 (by decide)

end BasketballScoreboard
